import Mathlib

/-!
Verification of the swing-analyzer core against its specification.

The TypeScript sources are shallowly embedded: JS numbers are modelled as
exact rationals (ℚ), `Math.round` as Mathlib's `round` (both compute
⌊x + 1/2⌋), nullable values as `Option`, and in-place array updates as
pure list transforms.  Each section names the source file it embeds.
-/

/-! ## Speed computation (src/utils/speedComputation.ts) -/

/-- Ascending insertion of one element, used by `sortAsc`. -/
def insertSorted (x : ℚ) : List ℚ → List ℚ
  | [] => [x]
  | y :: ys => if x ≤ y then x :: y :: ys else y :: insertSorted x ys

/-- Ascending sort, embedding the JS `values.sort((a, b) => a - b)`. -/
def sortAsc : List ℚ → List ℚ
  | [] => []
  | x :: xs => insertSorted x (sortAsc xs)

/-- `median(values)` from speedComputation.ts: 0 on the empty list, the middle
element of the ascending sort for odd length, the average of the two middle
elements for even length. -/
def median (values : List ℚ) : ℚ :=
  if values.length = 0 then 0
  else
    let sorted := sortAsc values
    let mid := sorted.length / 2
    if sorted.length % 2 = 0 then (sorted.getD (mid - 1) 0 + sorted.getD mid 0) / 2
    else sorted.getD mid 0

/-- Smoothing method: `'median' | 'mean'` from `SpeedComputationConfig`. -/
inductive SmoothingMethod where
  | median
  | mean
deriving DecidableEq

/-- `SpeedComputationConfig` (with the exercise-independent fields that the
smoothing pass reads; `userHeightCm`/`preferredSide` only parameterize the raw
velocity query, which is abstracted below). -/
structure SpeedComputationConfig where
  windowSize : ℕ
  userHeightCm : ℚ
  smoothingMethod : SmoothingMethod

/-- `DEFAULT_CONFIG` from speedComputation.ts. -/
def DEFAULT_CONFIG : SpeedComputationConfig :=
  { windowSize := 3, userHeightCm := 173, smoothingMethod := .median }

/-- One smoothing-window pass at index `i`: the defined raw speeds of the
window `[max 0 (i - half), min (n - 1) (i + half)]`, exactly the inner `for j`
loop of `smoothSpeeds`.  (ℕ subtraction `i - half` truncates at 0, matching
`Math.max(0, i - halfWindow)`.) -/
def windowDefinedSpeeds (rawSpeeds : List (Option ℚ)) (windowSize i : ℕ) : List ℚ :=
  let halfWindow := windowSize / 2
  let windowStart := i - halfWindow
  let windowEnd := min (rawSpeeds.length - 1) (i + halfWindow)
  (List.range' windowStart (windowEnd + 1 - windowStart)).filterMap
    (fun j => rawSpeeds.getD j none)

/-- `smoothSpeeds(rawSpeeds, windowSize, method)` from speedComputation.ts:
for every index, aggregate the defined raw speeds of the centered window via
median or mean, defaulting to 0 when the window holds no defined value. -/
def smoothSpeeds (rawSpeeds : List (Option ℚ)) (windowSize : ℕ)
    (method : SmoothingMethod) : List ℚ :=
  (List.range rawSpeeds.length).map fun i =>
    let windowValues := windowDefinedSpeeds rawSpeeds windowSize i
    if windowValues.length = 0 then 0
    else if method = .median then median windowValues
    else windowValues.foldl (· + ·) 0 / windowValues.length

/-- `Math.round(x * 100) / 100` used to round speeds to 2 decimal places
(JS `Math.round` is ⌊x + 1/2⌋, which is Mathlib's `round`). -/
def round2 (q : ℚ) : ℚ := ((round (q * 100) : ℤ) : ℚ) / 100

/-- The optional `angles` bag of a pose-track frame. -/
structure AnglesBag where
  spineAngle : ℚ
  armToSpineAngle : ℚ
  armToVerticalAngle : ℚ
  wristSpeed : Option ℚ
deriving DecidableEq

/-- A pose-track frame as read by the speed pass: its video time (s) and its
optional `angles` bag.  Keypoints only feed the abstracted velocity query. -/
structure SpeedFrame where
  videoTime : ℚ
  angles : Option AnglesBag
deriving DecidableEq

instance : Inhabited SpeedFrame := ⟨⟨0, none⟩⟩

/-- Modelled from the spec: the per-pair wrist velocity query
(`buildSkeletonFromFrame` + `Skeleton.getWristVelocityFromPrev`, whose sources
are not part of the analyzed tree) is abstracted as a function from the two
frames and the elapsed time to an optional speed; `none` covers both a failed
skeleton build and an unavailable wrist/calibration landmark. -/
def RawVelocityQuery : Type := SpeedFrame → SpeedFrame → ℚ → Option ℚ

/-- `computeRawSpeeds(frames, config)` from speedComputation.ts: `null` for
the first frame and for any pair whose time delta is outside (0, 0.5];
otherwise the (abstracted) wrist velocity of the pair. -/
def computeRawSpeeds (vel : RawVelocityQuery) (frames : List SpeedFrame) :
    List (Option ℚ) :=
  if frames.length < 2 then List.replicate frames.length none
  else
    (List.range frames.length).map fun i =>
      if i = 0 then none
      else
        let prev := frames.getD (i - 1) default
        let curr := frames.getD i default
        let dt := curr.videoTime - prev.videoTime
        if dt ≤ 0 ∨ dt > 1/2 then none
        else vel prev curr dt

/-- The default `angles` bag created by `computeFrameSpeeds` when a frame has
none. -/
def defaultAnglesBag : AnglesBag :=
  { spineAngle := 0, armToSpineAngle := 0, armToVerticalAngle := 0, wristSpeed := none }

/-- `computeFrameSpeeds(frames, config)` from speedComputation.ts: compute raw
speeds, smooth them, and populate every frame's `angles.wristSpeed` with the
2-decimal rounding of its smoothed speed. -/
def computeFrameSpeeds (vel : RawVelocityQuery) (frames : List SpeedFrame)
    (config : SpeedComputationConfig) : List SpeedFrame :=
  let rawSpeeds := computeRawSpeeds vel frames
  let smoothedSpeeds := smoothSpeeds rawSpeeds config.windowSize config.smoothingMethod
  (List.range frames.length).map fun i =>
    let frame := frames.getD i default
    let angles := frame.angles.getD defaultAnglesBag
    { frame with
        angles := some { angles with wristSpeed := some (round2 (smoothedSpeeds.getD i 0)) } }

/-! ## Form analyzer base class (src/analyzers/FormAnalyzerBase.ts)

The base class is generic over the phase set, the angle-measurement shape and
the peak shape; the embedding keeps them as type parameters.  The peak map
(`Partial<Record<TPhase, TPeak>>`) is an association list keyed by phase.
Exercise-specific state (owned by subclasses) is a further type parameter. -/

/-- The mutable state of a `FormAnalyzerBase` instance. -/
structure AnalyzerState (Phase Peak Quality ExState : Type) where
  phase : Phase
  repCount : ℕ
  lastRepQuality : Option Quality
  framesInPhase : ℕ
  minFramesInPhase : ℕ
  currentRepPeaks : List (Phase × Peak)
  exState : ExState

/-- The initial base state set up by the constructor and field initializers:
`repCount = 0`, `lastRepQuality = null`, `framesInPhase = 0`,
`minFramesInPhase = 2`, empty peak map, and the given initial phase. -/
def initialAnalyzerState {Phase Peak Quality ExState : Type}
    (initialPhase : Phase) (initialExState : ExState) :
    AnalyzerState Phase Peak Quality ExState :=
  { phase := initialPhase, repCount := 0, lastRepQuality := none,
    framesInPhase := 0, minFramesInPhase := 2, currentRepPeaks := [],
    exState := initialExState }

/-- `reset()` from FormAnalyzerBase.ts: zero the rep count and frame counter,
clear the last quality and the peak map, and delegate to the subclass's
`resetExerciseState()` (modelled as a function on the exercise-local state;
the shared base never touches `phase`). -/
def analyzerReset {Phase Peak Quality ExState : Type}
    (resetExerciseState : ExState → ExState)
    (s : AnalyzerState Phase Peak Quality ExState) :
    AnalyzerState Phase Peak Quality ExState :=
  { s with repCount := 0, framesInPhase := 0, lastRepQuality := none,
           currentRepPeaks := [], exState := resetExerciseState s.exState }

/-- `canTransition()` from FormAnalyzerBase.ts. -/
def canTransition {Phase Peak Quality ExState : Type}
    (s : AnalyzerState Phase Peak Quality ExState) : Prop :=
  s.framesInPhase ≥ s.minFramesInPhase

/-- `transitionTo(newPhase)` from FormAnalyzerBase.ts. -/
def transitionTo {Phase Peak Quality ExState : Type} (newPhase : Phase)
    (s : AnalyzerState Phase Peak Quality ExState) :
    AnalyzerState Phase Peak Quality ExState :=
  { s with phase := newPhase, framesInPhase := 0 }

/-- `storePeak(phase, peak)` from FormAnalyzerBase.ts: replace any existing
peak stored for that phase. -/
def storePeak {Phase Peak Quality ExState : Type} [DecidableEq Phase]
    (phase : Phase) (peak : Peak)
    (s : AnalyzerState Phase Peak Quality ExState) :
    AnalyzerState Phase Peak Quality ExState :=
  { s with currentRepPeaks :=
      (phase, peak) :: s.currentRepPeaks.filter (fun e => e.1 ≠ phase) }

/-- `completeRep()` from FormAnalyzerBase.ts: increment the rep count, store
the quality computed by the subclass's `calculateRepQuality()` (modelled as a
value, since it is subclass code evaluated at this state), and clear the peak
map. -/
def completeRep {Phase Peak Quality ExState : Type} (quality : Quality)
    (s : AnalyzerState Phase Peak Quality ExState) :
    AnalyzerState Phase Peak Quality ExState :=
  { s with repCount := s.repCount + 1, lastRepQuality := some quality,
           currentRepPeaks := [] }

/-- Modelled from the spec: a subclass's `processFrame` body (the concrete
analyzers are not part of the analyzed tree) is "exercise-specific logic"
that drives the shared base through its helper routines — dwell-counter
bumps (`this.framesInPhase++`), debounced `transitionTo`, `storePeak`, and
`completeRep` on the terminal transition.  One `processFrame` call is
therefore an arbitrary finite sequence of these base operations. -/
inductive BaseOp (Phase Peak Quality : Type) where
  | bumpFramesInPhase
  | transitionTo (newPhase : Phase)
  | storePeak (phase : Phase) (peak : Peak)
  | completeRep (quality : Quality)
  | updateExercise

/-- Apply one base operation issued by exercise-specific frame logic. -/
def applyBaseOp {Phase Peak Quality ExState : Type} [DecidableEq Phase]
    (touchExercise : ExState → ExState)
    (s : AnalyzerState Phase Peak Quality ExState) :
    BaseOp Phase Peak Quality → AnalyzerState Phase Peak Quality ExState
  | .bumpFramesInPhase => { s with framesInPhase := s.framesInPhase + 1 }
  | .transitionTo p => transitionTo p s
  | .storePeak p pk => storePeak p pk s
  | .completeRep q => completeRep q s
  | .updateExercise => { s with exState := touchExercise s.exState }

/-- Run a sequence of base operations (one or more `processFrame` calls). -/
def applyBaseOps {Phase Peak Quality ExState : Type} [DecidableEq Phase]
    (touchExercise : ExState → ExState)
    (s : AnalyzerState Phase Peak Quality ExState) :
    List (BaseOp Phase Peak Quality) → AnalyzerState Phase Peak Quality ExState
  | [] => s
  | op :: ops => applyBaseOps touchExercise (applyBaseOp touchExercise s op) ops

/-! ## Depth calculation (src/utils/depthCalculation.ts) -/

/-- `calculateDepthFromNormalizedY(normalizedEarY)`: linear map sending
normalized ear-Y 0.15 to 0 and 0.65 to 100, `Math.round`ed and clamped into
[0, 100]. -/
def calculateDepthFromNormalizedY (normalizedEarY : ℚ) : ℚ :=
  let STANDING_EAR_Y : ℚ := 15/100
  let SQUAT_RANGE : ℚ := 1/2
  let depthRaw := ((normalizedEarY - STANDING_EAR_Y) / SQUAT_RANGE) * 100
  max 0 (min 100 ((round depthRaw : ℤ) : ℚ))

/-! ## Canvas placement math (src/hooks/utils/hudUtils.ts, canvas-sync half) -/

/-- Native video dimensions. -/
structure VideoDimensions where
  videoWidth : ℚ
  videoHeight : ℚ

/-- Rendered container box. -/
structure VideoRect where
  width : ℚ
  height : ℚ

/-- A 2D pixel offset of the video element within its parent. -/
structure VideoOffset where
  x : ℚ
  y : ℚ

/-- A crop region in source-video pixel space (unrounded variant used by the
placement math). -/
structure CropRegionQ where
  x : ℚ
  y : ℚ
  width : ℚ
  height : ℚ

/-- Canvas placement result; `objectPosition` carries the two percentage
values of the `"X% Y%"` object-position string. -/
structure CanvasPlacement where
  width : ℚ
  height : ℚ
  left : ℚ
  top : ℚ
  objectPosition : Option (ℚ × ℚ) := none

/-- `calculateNormalModePlacement(video, container, videoOffset)`: letterbox
(`object-fit: contain`) placement. -/
def calculateNormalModePlacement (video : VideoDimensions) (container : VideoRect)
    (videoOffset : VideoOffset) : CanvasPlacement :=
  let videoAspect := video.videoWidth / video.videoHeight
  let containerAspect := container.width / container.height
  if videoAspect > containerAspect then
    { width := container.width, height := container.width / videoAspect,
      left := videoOffset.x + 0,
      top := videoOffset.y + (container.height - container.width / videoAspect) / 2 }
  else
    { width := container.height * videoAspect, height := container.height,
      left := videoOffset.x + (container.width - container.height * videoAspect) / 2,
      top := videoOffset.y + 0 }

/-- `calculateZoomedModePlacement(video, container, videoOffset, crop)`:
cover-scale placement centred on the crop region. -/
def calculateZoomedModePlacement (video : VideoDimensions) (container : VideoRect)
    (videoOffset : VideoOffset) (crop : CropRegionQ) : CanvasPlacement :=
  let scaleX := container.width / video.videoWidth
  let scaleY := container.height / video.videoHeight
  let coverScale := max scaleX scaleY
  let scaledWidth := video.videoWidth * coverScale
  let scaledHeight := video.videoHeight * coverScale
  let cropCenterX := (crop.x + crop.width / 2) / video.videoWidth
  let cropCenterY := (crop.y + crop.height / 2) / video.videoHeight
  let overflowX := scaledWidth - container.width
  let overflowY := scaledHeight - container.height
  { width := scaledWidth, height := scaledHeight,
    left := videoOffset.x + (-overflowX * cropCenterX),
    top := videoOffset.y + (-overflowY * cropCenterY),
    objectPosition := some (cropCenterX * 100, cropCenterY * 100) }

/-! ## Checkpoint time resolver (src/hooks/useRepNavigation.ts) -/

/-- A flattened navigation checkpoint. -/
structure Checkpoint where
  repNum : ℕ
  position : String
  videoTime : ℚ

/-- The `for ... break` scan of `updateRepAndPositionFromTime`: walk the
checkpoint list, remembering the rep/position of every checkpoint passing the
tolerance test, and stop at the first failure. -/
def resolveScan (videoTime : ℚ) : List Checkpoint → ℕ × Option String → ℕ × Option String
  | [], found => found
  | cp :: rest, found =>
    if videoTime ≥ cp.videoTime - 5/100 then
      resolveScan videoTime rest (cp.repNum, some cp.position)
    else
      found

/-- `updateRepAndPositionFromTime(videoTime)` from useRepNavigation.ts,
restricted to its pure result: `none` when the checkpoint list is empty (the
handler returns without updating anything), otherwise the (1-indexed rep,
optional position) produced by the scan starting from the default
`(1, null)`. -/
def updateRepAndPositionFromTime (checkpoints : List Checkpoint) (videoTime : ℚ) :
    Option (ℕ × Option String) :=
  if checkpoints.isEmpty then none
  else some (resolveScan videoTime checkpoints (1, none))

/-- The tolerance test of the scan: checkpoint time at or before the query
time within 0.05 s. -/
def checkpointHit (videoTime : ℚ) (cp : Checkpoint) : Prop :=
  videoTime ≥ cp.videoTime - 5/100

instance (videoTime : ℚ) (cp : Checkpoint) : Decidable (checkpointHit videoTime cp) := by
  unfold checkpointHit; infer_instance

/-- Checkpoint lists are kept sorted ascending by video time. -/
def CheckpointsSorted (checkpoints : List Checkpoint) : Prop :=
  checkpoints.Pairwise (fun a b => a.videoTime ≤ b.videoTime)

/-! ## Per-frame error handling (src/hooks/useExerciseAnalyzer.tsx) -/

/-- `MAX_CONSECUTIVE_ERRORS` from useExerciseAnalyzer.tsx. -/
def MAX_CONSECUTIVE_ERRORS : ℕ := 5

/-- The state read and written by `processSkeletonEvent`'s error handling:
the consecutive-error counter, the frame counter, and the last status
message set. -/
structure ErrorTrackState where
  consecutiveErrors : ℕ
  frameIndex : ℕ
  status : Option String

/-- The outcome of `pipeline.processSkeletonEvent(event)`: a rep-count result,
or a thrown exception. -/
inductive PipelineOutcome where
  | ok (repCount : ℕ)
  | thrown

/-- Result of one `processSkeletonEvent` call: the new tracking state,
whether the frame was skipped (early `return` in the catch branch), and
whether the degraded-analysis status message was surfaced on this call. -/
structure SkeletonEventResult where
  state : ErrorTrackState
  frameSkipped : Bool
  surfacedDegraded : Bool

/-- The error-handling core of `processSkeletonEvent` from
useExerciseAnalyzer.tsx: on success zero the error counter and continue (the
frame counter advances); on a thrown error increment the counter, surface the
degraded-analysis message exactly when the counter reaches
`MAX_CONSECUTIVE_ERRORS`, and skip the frame. -/
def processSkeletonEvent (s : ErrorTrackState) : PipelineOutcome → SkeletonEventResult
  | .ok _ =>
    { state := { s with consecutiveErrors := 0, frameIndex := s.frameIndex + 1 },
      frameSkipped := false, surfacedDegraded := false }
  | .thrown =>
    let n := s.consecutiveErrors + 1
    { state :=
        { s with consecutiveErrors := n,
                 status :=
                   if n = MAX_CONSECUTIVE_ERRORS then
                     some "Analysis experiencing errors - some frames may be skipped"
                   else s.status },
      frameSkipped := true,
      surfacedDegraded := n = MAX_CONSECUTIVE_ERRORS }

/-! ## Stable crop region (video crop utilities, `calculateStableCropRegion`) -/

/-- A pose keypoint: pixel x/y plus optional confidence score. -/
structure PoseKeypoint where
  x : ℚ
  y : ℚ
  score : Option ℚ

/-- A bounding box in video pixel coordinates. -/
structure BoundingBox where
  minX : ℚ
  minY : ℚ
  maxX : ℚ
  maxY : ℚ

/-- A frame as read by the crop pass: its keypoints. -/
structure CropFrame where
  keypoints : List PoseKeypoint

/-- The returned crop region, with every field `Math.round`ed. -/
structure CropRegion where
  x : ℤ
  y : ℤ
  width : ℤ
  height : ℤ
deriving DecidableEq

/-- `calculateBoundingBox(keypoints, minConfidence)`: min/max over the
keypoints whose `score ?? 0` exceeds the threshold, `null` when none does.
(The JS ±Infinity fold seeds collapse to a fold from the first confident
keypoint.) -/
def calculateBoundingBox (keypoints : List PoseKeypoint) (minConfidence : ℚ) :
    Option BoundingBox :=
  let confidentKeypoints := keypoints.filter (fun kp => kp.score.getD 0 > minConfidence)
  match confidentKeypoints with
  | [] => none
  | k :: ks =>
    some { minX := ks.foldl (fun m kp => min m kp.x) k.x,
           minY := ks.foldl (fun m kp => min m kp.y) k.y,
           maxX := ks.foldl (fun m kp => max m kp.x) k.x,
           maxY := ks.foldl (fun m kp => max m kp.y) k.y }

/-- `mergeBoundingBoxes(boxes)`: union of the boxes, `null` on the empty
list. -/
def mergeBoundingBoxes (boxes : List BoundingBox) : Option BoundingBox :=
  match boxes with
  | [] => none
  | b :: bs =>
    some { minX := bs.foldl (fun m bx => min m bx.minX) b.minX,
           minY := bs.foldl (fun m bx => min m bx.minY) b.minY,
           maxX := bs.foldl (fun m bx => max m bx.maxX) b.maxX,
           maxY := bs.foldl (fun m bx => max m bx.maxY) b.maxY }

/-- The crop-size fitting chain of `calculateStableCropRegion`: fit the padded
person box to the 3:4 target aspect, cap the height at 85% of the video
height, then re-fit if the width or height still exceeds the video. -/
def fitCropSize (paddedWidth paddedHeight videoWidth videoHeight : ℚ) : ℚ × ℚ :=
  let targetAspect : ℚ := 3/4
  let p1 : ℚ × ℚ :=
    if paddedWidth / paddedHeight > targetAspect then
      (paddedWidth, paddedWidth / targetAspect)
    else
      (paddedHeight * targetAspect, paddedHeight)
  let maxCropHeight := videoHeight * (85/100)
  let p2 : ℚ × ℚ :=
    if p1.2 > maxCropHeight then (maxCropHeight * targetAspect, maxCropHeight) else p1
  let p3 : ℚ × ℚ :=
    if p2.1 > videoWidth then (videoWidth, videoWidth / targetAspect) else p2
  if p3.2 > videoHeight then (videoHeight * targetAspect, videoHeight) else p3

/-- `calculateStableCropRegion(frames, videoWidth, videoHeight, widthPadding,
heightPadding)` from thumbnailCrop.ts: union the per-frame bounding boxes,
pad, fit to the 3:4 aspect with the height cap and bounds re-fits, center on
the person clamped into the video, and return the independently rounded
region. -/
def calculateStableCropRegion (frames : List CropFrame)
    (videoWidth videoHeight : ℚ) (widthPadding : ℚ) (heightPadding : ℚ) :
    Option CropRegion :=
  let boxes := frames.filterMap fun frame =>
    if frame.keypoints.length > 0 then calculateBoundingBox frame.keypoints (3/10)
    else none
  match mergeBoundingBoxes boxes with
  | none => none
  | some unionBox =>
    let personCenterX := (unionBox.minX + unionBox.maxX) / 2
    let personCenterY := (unionBox.minY + unionBox.maxY) / 2
    let personWidth := unionBox.maxX - unionBox.minX
    let personHeight := unionBox.maxY - unionBox.minY
    let paddedWidth := personWidth * widthPadding
    let paddedHeight := personHeight * heightPadding
    let fitted := fitCropSize paddedWidth paddedHeight videoWidth videoHeight
    let cropWidth := fitted.1
    let cropHeight := fitted.2
    let cropX := max 0 (min (personCenterX - cropWidth / 2) (videoWidth - cropWidth))
    let cropY := max 0 (min (personCenterY - cropHeight / 2) (videoHeight - cropHeight))
    some { x := round cropX, y := round cropY,
           width := round cropWidth, height := round cropHeight }

/-- Default padding multipliers of `calculateStableCropRegion`. -/
def DEFAULT_WIDTH_PADDING : ℚ := 7/5

/-- Default padding multipliers of `calculateStableCropRegion`. -/
def DEFAULT_HEIGHT_PADDING : ℚ := 13/10

/-! ## Theorems -/

/-- Any single base-class operation leaves `repCount` unchanged or increments
it; in particular it never decreases. -/
theorem repCount_le_applyBaseOp {Phase Peak Quality ExState : Type} [DecidableEq Phase]
    (touch : ExState → ExState) (s : AnalyzerState Phase Peak Quality ExState)
    (op : BaseOp Phase Peak Quality) :
    s.repCount ≤ (applyBaseOp touch s op).repCount := by
  cases op <;>
    simp [applyBaseOp, transitionTo, storePeak, completeRep]

/-- `repCount` is monotone along any sequence of base-class operations. -/
theorem repCount_le_applyBaseOps {Phase Peak Quality ExState : Type} [DecidableEq Phase]
    (touch : ExState → ExState) (s : AnalyzerState Phase Peak Quality ExState)
    (ops : List (BaseOp Phase Peak Quality)) :
    s.repCount ≤ (applyBaseOps touch s ops).repCount := by
  induction ops generalizing s with
  | nil => exact le_refl _
  | cons op ops ih =>
    exact le_trans (repCount_le_applyBaseOp touch s op) (ih _)

/-- C1: over every sequence of base operations issued by `processFrame`
calls, `repCount` never decreases; the shared `completeRep` routine increases
it by exactly 1; and `reset()` always sets it to zero. -/
theorem analyzer_repCount_monotone_spec :
    ∀ {Phase Peak Quality ExState : Type} [DecidableEq Phase]
      (touch : ExState → ExState) (s : AnalyzerState Phase Peak Quality ExState),
      (∀ ops : List (BaseOp Phase Peak Quality),
        s.repCount ≤ (applyBaseOps touch s ops).repCount) ∧
      (∀ q : Quality,
        (applyBaseOp touch s (.completeRep q)).repCount = s.repCount + 1) ∧
      (∀ f : ExState → ExState, (analyzerReset f s).repCount = 0) := by
  intro Phase Peak Quality ExState inst touch s
  exact ⟨fun ops => repCount_le_applyBaseOps touch s ops, fun q => rfl, fun f => rfl⟩

/-- C2: for every prior state, `reset()` leaves `repCount = 0`, the peak map
empty and `lastRepQuality = null`, while the shared base leaves the current
phase field unchanged. -/
theorem analyzer_reset_spec :
    ∀ {Phase Peak Quality ExState : Type} (f : ExState → ExState)
      (s : AnalyzerState Phase Peak Quality ExState),
      (analyzerReset f s).repCount = 0 ∧
      (analyzerReset f s).currentRepPeaks = [] ∧
      (analyzerReset f s).lastRepQuality = none ∧
      (analyzerReset f s).phase = s.phase :=
  fun _ _ => ⟨rfl, rfl, rfl, rfl⟩

/-- C9: a thrown frame-processing exception is caught and the frame skipped
with the frame counter untouched, the consecutive-error counter increments on
each failure and resets to 0 on each success, and the degraded-analysis
message is surfaced exactly when the counter reaches the fixed threshold of
5. -/
theorem processSkeletonEvent_error_spec :
    ∀ s : ErrorTrackState,
      (∀ r : ℕ,
        (processSkeletonEvent s (.ok r)).state.consecutiveErrors = 0 ∧
        (processSkeletonEvent s (.ok r)).frameSkipped = false ∧
        (processSkeletonEvent s (.ok r)).surfacedDegraded = false ∧
        (processSkeletonEvent s (.ok r)).state.frameIndex = s.frameIndex + 1 ∧
        (processSkeletonEvent s (.ok r)).state.status = s.status) ∧
      ((processSkeletonEvent s .thrown).state.consecutiveErrors =
          s.consecutiveErrors + 1 ∧
        (processSkeletonEvent s .thrown).frameSkipped = true ∧
        (processSkeletonEvent s .thrown).state.frameIndex = s.frameIndex ∧
        ((processSkeletonEvent s .thrown).surfacedDegraded = true ↔
          s.consecutiveErrors + 1 = MAX_CONSECUTIVE_ERRORS) ∧
        MAX_CONSECUTIVE_ERRORS = 5) := by
  intro s
  refine ⟨fun r => ⟨rfl, rfl, rfl, rfl, rfl⟩, rfl, rfl, rfl, ?_, rfl⟩
  simp [processSkeletonEvent]

/-- The median of `[s, 0, s]` is `s` whenever `0 ≤ s`. -/
theorem median_of_isolated_zero (s : ℚ) (h : 0 ≤ s) : median [s, 0, s] = s := by
  rcases le_or_lt s 0 with hs | hs
  · have h0 : s = 0 := le_antisymm hs h
    subst h0; decide
  · have h1 : ¬ s ≤ 0 := not_le.mpr hs
    simp [median, sortAsc, insertSorted, h, h1]

/-- C4: for raw speeds `[2,2,0,2,2]` with window 3, median smoothing yields 2
at index 2 while mean smoothing yields 4/3; and for any isolated zero between
high samples `[s,s,0,s,s]` (`0 ≤ s`), the median-smoothed value at the zero
index is at least the mean-smoothed value there. -/
theorem median_vs_mean_isolated_zero :
    (smoothSpeeds [some 2, some 2, some 0, some 2, some 2] 3 .median).getD 2 0 = 2 ∧
    (smoothSpeeds [some 2, some 2, some 0, some 2, some 2] 3 .mean).getD 2 0 = 4/3 ∧
    ∀ s : ℚ, 0 ≤ s →
      (smoothSpeeds [some s, some s, some 0, some s, some s] 3 .mean).getD 2 0 ≤
      (smoothSpeeds [some s, some s, some 0, some s, some s] 3 .median).getD 2 0 := by
  refine ⟨by decide, ?_, ?_⟩
  · simp only [smoothSpeeds, windowDefinedSpeeds]
    norm_num [List.range_succ, List.filterMap, List.getD]
    intro h
    exact absurd h (by decide)
  · intro s hs
    have hw : windowDefinedSpeeds [some s, some s, some 0, some s, some s] 3 2
        = [s, 0, s] := rfl
    have hm : (smoothSpeeds [some s, some s, some 0, some s, some s] 3 .median).getD 2 0
        = median [s, 0, s] := by
      simp [smoothSpeeds, List.range_succ, hw]
    have hn : (smoothSpeeds [some s, some s, some 0, some s, some s] 3 .mean).getD 2 0
        = (s + 0 + s) / 3 := by
      simp [smoothSpeeds, List.range_succ, hw, List.foldl]
    rw [hm, hn, median_of_isolated_zero s hs]
    linarith

/-- Witness for C4's general inequality, at the high sample 3. -/
theorem median_vs_mean_isolated_zero_witness :
    (smoothSpeeds [some 3, some 3, some 0, some 3, some 3] 3 .mean).getD 2 0 ≤
    (smoothSpeeds [some 3, some 3, some 0, some 3, some 3] 3 .median).getD 2 0 :=
  median_vs_mean_isolated_zero.2.2 3 (by norm_num)

/-- C5: `calculateDepthFromNormalizedY` maps normalized ear-Y 0.15 to 0%,
0.4 to 50% and 0.65 to 100%, clamping to 0% below 0.15 and to 100% above
0.65. -/
theorem calculateDepth_anchors_and_clamps :
    calculateDepthFromNormalizedY (15/100) = 0 ∧
    calculateDepthFromNormalizedY (4/10) = 50 ∧
    calculateDepthFromNormalizedY (65/100) = 100 ∧
    (∀ y : ℚ, y < 15/100 → calculateDepthFromNormalizedY y = 0) ∧
    (∀ y : ℚ, y > 65/100 → calculateDepthFromNormalizedY y = 100) := by
  refine ⟨by norm_num [calculateDepthFromNormalizedY, round_eq],
          by norm_num [calculateDepthFromNormalizedY, round_eq],
          by norm_num [calculateDepthFromNormalizedY, round_eq], ?_, ?_⟩
  · intro y hy
    simp only [calculateDepthFromNormalizedY]
    have hr : round (((y - 15/100) / (1/2)) * 100) ≤ 0 := by
      rw [round_eq]
      have h1 : (((y - 15/100) / (1/2)) * 100 + 1/2 : ℚ) < 1 := by nlinarith
      have h2 : ⌊(((y - 15/100) / (1/2)) * 100 + 1/2 : ℚ)⌋ < (1 : ℤ) :=
        Int.floor_lt.mpr (by exact_mod_cast h1)
      omega
    have hc : ((round (((y - 15/100) / (1/2)) * 100) : ℤ) : ℚ) ≤ 0 := by
      exact_mod_cast hr
    rw [min_eq_right (le_trans hc (by norm_num)), max_eq_left hc]
  · intro y hy
    simp only [calculateDepthFromNormalizedY]
    have hr : (100 : ℤ) ≤ round (((y - 15/100) / (1/2)) * 100) := by
      have h1 : (100 : ℚ) ≤ ((y - 15/100) / (1/2)) * 100 := by nlinarith
      calc (100 : ℤ) = round (100 : ℚ) := by norm_num [round_eq]
        _ ≤ round (((y - 15/100) / (1/2)) * 100) := by
            rw [round_eq, round_eq]
            exact Int.floor_le_floor (by linarith)
    have hc : (100 : ℚ) ≤ ((round (((y - 15/100) / (1/2)) * 100) : ℤ) : ℚ) := by
      exact_mod_cast hr
    rw [min_eq_left hc, max_eq_right (by norm_num : (0:ℚ) ≤ 100)]

/-- Witness for C5's clamping clauses, at 0.1 (below) and 0.7 (above). -/
theorem calculateDepth_anchors_and_clamps_witness :
    calculateDepthFromNormalizedY (1/10) = 0 ∧
    calculateDepthFromNormalizedY (7/10) = 100 :=
  ⟨calculateDepth_anchors_and_clamps.2.2.2.1 (1/10) (by norm_num),
   calculateDepth_anchors_and_clamps.2.2.2.2 (7/10) (by norm_num)⟩

/-- C6: contain-mode placement fits width and centers vertically when the
video aspect exceeds the container aspect, otherwise fits height and centers
horizontally; equal aspects fill the container exactly; and a 1080×1920 video
in a 400×800 container yields width 400, height 6400/9 (≈711.1), left 0 and
top 400/9 (≈44.4). -/
theorem normalMode_placement_spec :
    (∀ (video : VideoDimensions) (container : VideoRect) (off : VideoOffset),
      0 < video.videoWidth → 0 < video.videoHeight →
      0 < container.width → 0 < container.height →
      ((video.videoWidth / video.videoHeight > container.width / container.height →
        calculateNormalModePlacement video container off =
          { width := container.width,
            height := container.width / (video.videoWidth / video.videoHeight),
            left := off.x,
            top := off.y + (container.height -
              container.width / (video.videoWidth / video.videoHeight)) / 2 }) ∧
      (¬ video.videoWidth / video.videoHeight > container.width / container.height →
        calculateNormalModePlacement video container off =
          { width := container.height * (video.videoWidth / video.videoHeight),
            height := container.height,
            left := off.x + (container.width -
              container.height * (video.videoWidth / video.videoHeight)) / 2,
            top := off.y }) ∧
      (video.videoWidth / video.videoHeight = container.width / container.height →
        calculateNormalModePlacement video container off =
          { width := container.width, height := container.height,
            left := off.x, top := off.y }))) ∧
    calculateNormalModePlacement ⟨1080, 1920⟩ ⟨400, 800⟩ ⟨0, 0⟩ =
      { width := 400, height := 6400/9, left := 0, top := 400/9 } := by
  constructor
  · intro video container off hvw hvh hcw hch
    have h1 : video.videoWidth / video.videoHeight > container.width / container.height →
        calculateNormalModePlacement video container off =
          { width := container.width,
            height := container.width / (video.videoWidth / video.videoHeight),
            left := off.x,
            top := off.y + (container.height -
              container.width / (video.videoWidth / video.videoHeight)) / 2 } := by
      intro hgt
      simp only [calculateNormalModePlacement, if_pos hgt]
      congr 1
      ring
    have h2 : ¬ video.videoWidth / video.videoHeight > container.width / container.height →
        calculateNormalModePlacement video container off =
          { width := container.height * (video.videoWidth / video.videoHeight),
            height := container.height,
            left := off.x + (container.width -
              container.height * (video.videoWidth / video.videoHeight)) / 2,
            top := off.y } := by
      intro hle
      simp only [calculateNormalModePlacement, if_neg hle]
      congr 1
      ring
    refine ⟨h1, h2, ?_⟩
    intro heq
    have hle : ¬ video.videoWidth / video.videoHeight > container.width / container.height := by
      rw [heq]; exact lt_irrefl _
    rw [h2 hle, heq]
    have hw : container.height * (container.width / container.height) = container.width := by
      field_simp
    rw [hw]
    congr 1
    ring
  · norm_num [calculateNormalModePlacement]

/-- Witness for C6's branch clauses, at a 1080×1920 video in a 400×800
container with a (3, 7) element offset (video relatively wider:
1080/1920 > 400/800). -/
theorem normalMode_placement_spec_witness :
    calculateNormalModePlacement ⟨1080, 1920⟩ ⟨400, 800⟩ ⟨3, 7⟩ =
      { width := 400, height := 400 / ((1080 : ℚ) / 1920), left := 3,
        top := 7 + (800 - 400 / ((1080 : ℚ) / 1920)) / 2 } :=
  (normalMode_placement_spec.1 ⟨1080, 1920⟩ ⟨400, 800⟩ ⟨3, 7⟩
    (by norm_num) (by norm_num) (by norm_num) (by norm_num)).1 (by norm_num)

/-- C7: cover-mode placement scales by
`max (containerWidth/videoWidth) (containerHeight/videoHeight)`, returns the
scaled (possibly overflowing) dimensions, and sets the object-position
percentages to the crop-center fractions × 100; a full-frame crop of a
1080×1920 video yields object-position (50%, 50%). -/
theorem zoomedMode_placement_spec :
    (∀ (video : VideoDimensions) (container : VideoRect) (off : VideoOffset)
      (crop : CropRegionQ),
      (calculateZoomedModePlacement video container off crop).width =
        video.videoWidth *
          max (container.width / video.videoWidth) (container.height / video.videoHeight) ∧
      (calculateZoomedModePlacement video container off crop).height =
        video.videoHeight *
          max (container.width / video.videoWidth) (container.height / video.videoHeight) ∧
      (calculateZoomedModePlacement video container off crop).objectPosition =
        some ((crop.x + crop.width / 2) / video.videoWidth * 100,
              (crop.y + crop.height / 2) / video.videoHeight * 100)) ∧
    (calculateZoomedModePlacement ⟨1080, 1920⟩ ⟨400, 800⟩ ⟨0, 0⟩
        ⟨0, 0, 1080, 1920⟩).objectPosition = some (50, 50) := by
  refine ⟨fun video container off crop => ⟨rfl, rfl, rfl⟩, ?_⟩
  norm_num [calculateZoomedModePlacement]

/-- The scan of `updateRepAndPositionFromTime` keeps the last element of the
longest prefix of checkpoints passing the tolerance test. -/
theorem resolveScan_eq_takeWhile (t : ℚ) :
    ∀ (cps : List Checkpoint) (acc : ℕ × Option String),
      resolveScan t cps acc =
        ((cps.takeWhile (fun cp => decide (checkpointHit t cp))).getLast?).elim acc
          (fun cp => (cp.repNum, some cp.position)) := by
  intro cps
  induction cps with
  | nil => intro acc; rfl
  | cons cp rest ih =>
    intro acc
    by_cases h : checkpointHit t cp
    · have hd : decide (checkpointHit t cp) = true := decide_eq_true h
      rw [resolveScan, if_pos (show t ≥ cp.videoTime - 5/100 from h),
        List.takeWhile_cons, hd, ih]
      cases hrest : rest.takeWhile (fun cp => decide (checkpointHit t cp)) with
      | nil => simp
      | cons x xs =>
        cases h2 : (x :: xs).getLast? with
        | none => simp at h2
        | some y => simp [h2]
    · have hd : decide (checkpointHit t cp) = false := decide_eq_false h
      rw [resolveScan, if_neg (show ¬ t ≥ cp.videoTime - 5/100 from h),
        List.takeWhile_cons, hd]
      simp

/-- On a sorted checkpoint list the tolerance test is prefix-closed, so the
scanned prefix is the whole set of passing checkpoints. -/
theorem takeWhile_hit_eq_filter (t : ℚ) :
    ∀ cps : List Checkpoint, CheckpointsSorted cps →
      cps.takeWhile (fun cp => decide (checkpointHit t cp)) =
        cps.filter (fun cp => decide (checkpointHit t cp)) := by
  intro cps
  induction cps with
  | nil => intro _; rfl
  | cons cp rest ih =>
    intro hs
    rw [CheckpointsSorted, List.pairwise_cons] at hs
    obtain ⟨hle, hrest⟩ := hs
    by_cases h : checkpointHit t cp
    · have hd : decide (checkpointHit t cp) = true := decide_eq_true h
      rw [List.takeWhile_cons, List.filter_cons, hd, ih hrest]
      simp
    · have hd : decide (checkpointHit t cp) = false := decide_eq_false h
      rw [List.takeWhile_cons, List.filter_cons, hd]
      have hnone : rest.filter (fun cp => decide (checkpointHit t cp)) = [] := by
        rw [List.filter_eq_nil_iff]
        intro a ha
        simp only [decide_eq_true_eq]
        intro hhit
        apply h
        have hca := hle a ha
        unfold checkpointHit at hhit ⊢
        linarith
      simp [hnone]

/-- C8: on a nonempty ascending checkpoint list, the time resolver returns
the last checkpoint whose video time is at or before the query time within
the 0.05 s tolerance, and defaults to rep 1 with no position when no
checkpoint passes that test. -/
theorem updateRepAndPositionFromTime_spec :
    ∀ (checkpoints : List Checkpoint) (t : ℚ),
      CheckpointsSorted checkpoints → checkpoints ≠ [] →
      (updateRepAndPositionFromTime checkpoints t =
        some (((checkpoints.filter (fun cp => decide (checkpointHit t cp))).getLast?).elim
          (1, (none : Option String)) (fun cp => (cp.repNum, some cp.position)))) ∧
      ((∀ cp ∈ checkpoints, ¬ checkpointHit t cp) →
        updateRepAndPositionFromTime checkpoints t = some (1, none)) := by
  intro checkpoints t hs hne
  have hmain : updateRepAndPositionFromTime checkpoints t =
      some (((checkpoints.filter (fun cp => decide (checkpointHit t cp))).getLast?).elim
        (1, (none : Option String)) (fun cp => (cp.repNum, some cp.position))) := by
    rw [updateRepAndPositionFromTime, if_neg (by simpa [List.isEmpty_iff] using hne)]
    rw [resolveScan_eq_takeWhile, takeWhile_hit_eq_filter t checkpoints hs]
  refine ⟨hmain, fun hall => ?_⟩
  have hnil : checkpoints.filter (fun cp => decide (checkpointHit t cp)) = [] := by
    rw [List.filter_eq_nil_iff]
    intro a ha
    simpa using hall a ha
  rw [hmain, hnil]
  rfl

/-- Witness for C8, on checkpoints at video times 1, 2, 3 queried at 2.5: the
resolver lands on the rep-1 "bottom" checkpoint at time 2. -/
theorem updateRepAndPositionFromTime_spec_witness :
    updateRepAndPositionFromTime
      [⟨1, "top", 1⟩, ⟨1, "bottom", 2⟩, ⟨2, "top", 3⟩] (5/2) =
      some (1, some "bottom") := by
  have h := (updateRepAndPositionFromTime_spec
    [⟨1, "top", 1⟩, ⟨1, "bottom", 2⟩, ⟨2, "top", 3⟩] (5/2)
    (by unfold CheckpointsSorted; norm_num) (by simp)).1
  rw [h]
  norm_num [checkpointHit]

/-- Spec-side description of the smoothing window: every index of the
raw-speed sequence lying within the centered window of the configured size
around `i`, keeping only the defined raw speeds. -/
def centeredWindowSpeeds (rawSpeeds : List (Option ℚ)) (windowSize i : ℕ) : List ℚ :=
  ((List.range rawSpeeds.length).filter
    (fun j => decide (i - windowSize / 2 ≤ j) && decide (j ≤ i + windowSize / 2))).filterMap
    (fun j => rawSpeeds.getD j none)

/-- The indices of `range n` lying in `[lo, hi]` form the contiguous block
`range' lo (hi + 1 - lo)`. -/
theorem range_filter_between (n lo hi : ℕ) (hlo : lo ≤ hi) (hhi : hi < n) :
    (List.range n).filter (fun j => decide (lo ≤ j) && decide (j ≤ hi)) =
      List.range' lo (hi + 1 - lo) := by
  apply @List.eq_of_perm_of_sorted ℕ (· < ·) _
  · rw [List.perm_ext_iff_of_nodup ((List.nodup_range n).filter _)
      (List.nodup_range' lo (hi + 1 - lo) 1 (by norm_num))]
    intro a
    simp only [List.mem_filter, List.mem_range, List.mem_range'_1, Bool.and_eq_true,
      decide_eq_true_eq]
    omega
  · exact (List.sorted_lt_range n).filter _
  · rw [List.Sorted, List.pairwise_iff_get]
    intro i j h
    simp only [List.get_eq_getElem, List.getElem_range'_1]
    omega

/-- The inner window loop of `smoothSpeeds` collects exactly the defined raw
speeds of the centered window around `i`. -/
theorem windowDefinedSpeeds_eq_centered (raw : List (Option ℚ)) (w i : ℕ)
    (hi : i < raw.length) :
    windowDefinedSpeeds raw w i = centeredWindowSpeeds raw w i := by
  unfold windowDefinedSpeeds centeredWindowSpeeds
  have hstep : (List.range raw.length).filter
      (fun j => decide (i - w / 2 ≤ j) && decide (j ≤ i + w / 2)) =
      (List.range raw.length).filter
      (fun j => decide (i - w / 2 ≤ j) && decide (j ≤ min (raw.length - 1) (i + w / 2))) := by
    apply List.filter_congr
    intro j hj
    rw [List.mem_range] at hj
    congr 1
    rcases le_or_lt j (i + w / 2) with h | h
    · have h2 : j ≤ min (raw.length - 1) (i + w / 2) := by omega
      rw [decide_eq_true h, decide_eq_true h2]
    · have h2 : ¬ j ≤ min (raw.length - 1) (i + w / 2) := by omega
      rw [decide_eq_false (by omega), decide_eq_false h2]
  rw [hstep, range_filter_between raw.length (i - w / 2) (min (raw.length - 1) (i + w / 2))
    (by omega) (by omega)]

/-- Reading index `i < n` out of a map over `range n`. -/
theorem getD_map_range {α : Type} [Inhabited α] (n i : ℕ) (f : ℕ → α) (hi : i < n) :
    ((List.range n).map f).getD i default = f i := by
  rw [List.getD_eq_getElem?_getD, List.getElem?_map, List.getElem?_range hi]
  rfl

/-- Elementwise value of `smoothSpeeds`. -/
theorem smoothSpeeds_getD (raw : List (Option ℚ)) (w : ℕ) (m : SmoothingMethod)
    (i : ℕ) (hi : i < raw.length) :
    (smoothSpeeds raw w m).getD i 0 =
      (let windowValues := windowDefinedSpeeds raw w i
       if windowValues.length = 0 then 0
       else if m = .median then median windowValues
       else windowValues.foldl (· + ·) 0 / windowValues.length) := by
  unfold smoothSpeeds
  rw [List.getD_eq_getElem?_getD, List.getElem?_map, List.getElem?_range hi]
  rfl

/-- C3: after `computeFrameSpeeds`, the output has one frame per input frame
and every frame's `angles.wristSpeed` is defined and equals the aggregate
(median by default, mean when configured; 0 when the window holds no defined
raw speed) of the defined raw adjacent-pair speeds in the centered window of
the configured size (default 3) clipped at the sequence bounds, rounded to 2
decimal places. -/
theorem computeFrameSpeeds_spec :
    ∀ (vel : RawVelocityQuery) (frames : List SpeedFrame)
      (config : SpeedComputationConfig),
      (computeFrameSpeeds vel frames config).length = frames.length ∧
      DEFAULT_CONFIG.windowSize = 3 ∧
      DEFAULT_CONFIG.smoothingMethod = .median ∧
      ∀ i, i < frames.length →
        ((computeFrameSpeeds vel frames config).getD i default).angles.isSome = true ∧
        (((computeFrameSpeeds vel frames config).getD i default).angles.getD
            defaultAnglesBag).wristSpeed =
          some (round2 (
            let vals := centeredWindowSpeeds (computeRawSpeeds vel frames)
              config.windowSize i
            if vals.length = 0 then 0
            else
              match config.smoothingMethod with
              | .median => median vals
              | .mean => vals.foldl (· + ·) 0 / vals.length)) := by
  intro vel frames config
  have hrawlen : (computeRawSpeeds vel frames).length = frames.length := by
    unfold computeRawSpeeds
    split
    · exact List.length_replicate _ _
    · rw [List.length_map, List.length_range]
  refine ⟨?_, rfl, rfl, ?_⟩
  · unfold computeFrameSpeeds
    rw [List.length_map, List.length_range]
  · intro i hilt
    have hgd : (computeFrameSpeeds vel frames config).getD i default =
        (let frame := frames.getD i default
         let angles := frame.angles.getD defaultAnglesBag
         { frame with
            angles := some { angles with wristSpeed := some (round2
              ((smoothSpeeds (computeRawSpeeds vel frames) config.windowSize
                config.smoothingMethod).getD i 0)) } }) := by
      unfold computeFrameSpeeds
      exact getD_map_range frames.length i _ hilt
    rw [hgd]
    have hiraw : i < (computeRawSpeeds vel frames).length := by rw [hrawlen]; exact hilt
    refine ⟨rfl, ?_⟩
    rw [smoothSpeeds_getD _ _ _ i hiraw,
      windowDefinedSpeeds_eq_centered _ _ i hiraw]
    cases hm : config.smoothingMethod <;> simp

/-- A constant raw-velocity query used to instantiate the speed pass. -/
def constVelocityQuery : RawVelocityQuery := fun _ _ _ => some 1

/-- Witness for C3, on a two-frame track with a constant unit velocity: the
first frame's smoothed speed is 1. -/
theorem computeFrameSpeeds_spec_witness :
    (((computeFrameSpeeds constVelocityQuery [⟨0, none⟩, ⟨1/10, none⟩]
        DEFAULT_CONFIG).getD 0 default).angles.getD defaultAnglesBag).wristSpeed =
      some 1 := by
  have h := (computeFrameSpeeds_spec constVelocityQuery [⟨0, none⟩, ⟨1/10, none⟩]
    DEFAULT_CONFIG).2.2.2 0 (by norm_num)
  rw [h.2]
  norm_num [centeredWindowSpeeds, computeRawSpeeds, constVelocityQuery, DEFAULT_CONFIG,
    median, sortAsc, insertSorted, round2, round_eq, List.range_succ, List.getD, List.filterMap]

/-- Rounding a coordinate clamped into `[0, W - w]` stays at or above 0, and
together with the rounded size overshoots `W` by at most 1. -/
theorem round_clamped_bounds (c W w : ℚ) (hw : w ≤ W) :
    0 ≤ round (max 0 (min (c - w/2) (W - w))) ∧
    (round (max 0 (min (c - w/2) (W - w))) : ℚ) + (round w : ℚ) ≤ W + 1 := by
  have hpos : (0:ℚ) ≤ max 0 (min (c - w/2) (W - w)) := le_max_left _ _
  have hub : max 0 (min (c - w/2) (W - w)) ≤ W - w :=
    max_le (by linarith) (min_le_right _ _)
  constructor
  · rw [round_eq]
    exact Int.le_floor.mpr (by push_cast; linarith)
  · have h1 : (round (max 0 (min (c - w/2) (W - w))) : ℚ) ≤
        max 0 (min (c - w/2) (W - w)) + 1/2 := by
      rw [round_eq]
      exact_mod_cast le_trans (Int.floor_le _) le_rfl
    have h2 : (round w : ℚ) ≤ w + 1/2 := by
      rw [round_eq]
      exact_mod_cast le_trans (Int.floor_le _) le_rfl
    linarith

/-- The size-fitting chain keeps the crop at most as wide and as tall as the
video. -/
theorem fitCropSize_le (pw ph W H : ℚ) (hW : 0 < W) (hH : 0 < H) :
    (fitCropSize pw ph W H).1 ≤ W ∧ (fitCropSize pw ph W H).2 ≤ H := by
  have hdiv : ∀ x : ℚ, x / (3/4) = x * (4/3) := fun x => by ring
  unfold fitCropSize
  simp only [hdiv]
  split_ifs <;> constructor <;> linarith

/-- Counterexample to C10: for the single frame with confident keypoints
(10, 40) and (20, 60) in a 20×40 video, the returned crop is
`{x: 1, y: 14, width: 20, height: 26}`, whose right edge `x + width = 21`
exceeds the video width 20: the pre-rounding crop is `x = 0.5`,
`width = 19.5`, and the two fields round up independently. -/
theorem cropRegion_bounds_counterexample :
    ¬ (∀ (frames : List CropFrame) (videoWidth videoHeight : ℚ) (r : CropRegion),
      0 < videoWidth → 0 < videoHeight →
      calculateStableCropRegion frames videoWidth videoHeight
        DEFAULT_WIDTH_PADDING DEFAULT_HEIGHT_PADDING = some r →
      0 ≤ r.x ∧ 0 ≤ r.y ∧
      (r.x : ℚ) + (r.width : ℚ) ≤ videoWidth ∧
      (r.y : ℚ) + (r.height : ℚ) ≤ videoHeight) := by
  intro hclaim
  have heval : calculateStableCropRegion
      [⟨[⟨10, 40, some (9/10)⟩, ⟨20, 60, some (9/10)⟩]⟩] 20 40
      DEFAULT_WIDTH_PADDING DEFAULT_HEIGHT_PADDING =
      some ⟨1, 14, 20, 26⟩ := by
    norm_num [calculateStableCropRegion, calculateBoundingBox, mergeBoundingBoxes,
      fitCropSize, DEFAULT_WIDTH_PADDING, DEFAULT_HEIGHT_PADDING, round_eq,
      List.filterMap, List.filter, List.foldl]
  have hbounds := hclaim [⟨[⟨10, 40, some (9/10)⟩, ⟨20, 60, some (9/10)⟩]⟩] 20 40
    ⟨1, 14, 20, 26⟩ (by norm_num) (by norm_num) heval
  have hxw := hbounds.2.2.1
  norm_num at hxw

/-- C10 (amended): whenever `calculateStableCropRegion` returns a crop for a
positive-dimension video, the crop satisfies `x ≥ 0`, `y ≥ 0`,
`x + width ≤ videoWidth + 1` and `y + height ≤ videoHeight + 1`; the
independent rounding of each field can push either far edge at most 1 pixel
past the source bounds. -/
theorem cropRegion_bounds_amended :
    ∀ (frames : List CropFrame) (videoWidth videoHeight : ℚ) (r : CropRegion),
      0 < videoWidth → 0 < videoHeight →
      calculateStableCropRegion frames videoWidth videoHeight
        DEFAULT_WIDTH_PADDING DEFAULT_HEIGHT_PADDING = some r →
      0 ≤ r.x ∧ 0 ≤ r.y ∧
      (r.x : ℚ) + (r.width : ℚ) ≤ videoWidth + 1 ∧
      (r.y : ℚ) + (r.height : ℚ) ≤ videoHeight + 1 := by
  intro frames W H r hW hH h
  unfold calculateStableCropRegion at h
  dsimp only [] at h
  split at h
  · exact absurd h (by simp)
  · rename_i ub hmb
    obtain rfl := (Option.some.inj h).symm
    obtain ⟨hwle, hhle⟩ := fitCropSize_le
      ((ub.maxX - ub.minX) * DEFAULT_WIDTH_PADDING)
      ((ub.maxY - ub.minY) * DEFAULT_HEIGHT_PADDING) W H hW hH
    obtain ⟨hx0, hxw⟩ := round_clamped_bounds ((ub.minX + ub.maxX) / 2) W
      (fitCropSize ((ub.maxX - ub.minX) * DEFAULT_WIDTH_PADDING)
        ((ub.maxY - ub.minY) * DEFAULT_HEIGHT_PADDING) W H).1 hwle
    obtain ⟨hy0, hyh⟩ := round_clamped_bounds ((ub.minY + ub.maxY) / 2) H
      (fitCropSize ((ub.maxX - ub.minX) * DEFAULT_WIDTH_PADDING)
        ((ub.maxY - ub.minY) * DEFAULT_HEIGHT_PADDING) W H).2 hhle
    exact ⟨hx0, hy0, hxw, hyh⟩

/-- Witness for the amended C10, on a single frame with confident keypoints
(8, 10) and (12, 30) in a 100×100 video: the crop is
`{x: 0, y: 7, width: 20, height: 26}`, inside the slack bounds. -/
theorem cropRegion_bounds_amended_witness :
    0 ≤ (CropRegion.mk 0 7 20 26).x ∧ 0 ≤ (CropRegion.mk 0 7 20 26).y ∧
    ((CropRegion.mk 0 7 20 26).x : ℚ) + ((CropRegion.mk 0 7 20 26).width : ℚ) ≤ 100 + 1 ∧
    ((CropRegion.mk 0 7 20 26).y : ℚ) + ((CropRegion.mk 0 7 20 26).height : ℚ) ≤ 100 + 1 :=
  cropRegion_bounds_amended [⟨[⟨8, 10, some (1/2)⟩, ⟨12, 30, some (1/2)⟩]⟩] 100 100
    ⟨0, 7, 20, 26⟩ (by norm_num) (by norm_num)
    (by norm_num [calculateStableCropRegion, calculateBoundingBox, mergeBoundingBoxes,
      fitCropSize, DEFAULT_WIDTH_PADDING, DEFAULT_HEIGHT_PADDING, round_eq,
      List.filterMap, List.filter, List.foldl])
